import Mathlib

/-!
Verification of busybox `libbb/executable.c`.

Strings are modelled as `List Char` (the C code walks NUL-terminated byte
strings with a pointer; a `List Char` suffix plays the role of the advanced
pointer).  The filesystem is an abstract oracle `FS` providing the two OS
calls the code issues: `access(name, X_OK)` and `stat(name, &s)`.
-/

/-- Model of `struct stat`: only `st_mode` is consulted by the code. -/
structure FileStat where
  st_mode : Nat
deriving DecidableEq

/-- `S_IFMT`, the file-type bit mask (octal 0170000). -/
def S_IFMT : Nat := 0o170000

/-- `S_IFREG`, the regular-file type bits (octal 0100000). -/
def S_IFREG : Nat := 0o100000

/-- `S_ISREG(m)`: the file type bits of `m` are exactly `S_IFREG`. -/
def S_ISREG (m : Nat) : Bool := m &&& S_IFMT == S_IFREG

/-- Abstract filesystem state: results of the two OS probes used by the code.
`access_X_OK name = true` models `access(name, X_OK) == 0` (execute access
granted); `stat name = none` models a failing `stat` call (any OS error),
`some s` a successful one filling in `s`. -/
structure FS where
  access_X_OK : List Char → Bool
  stat : List Char → Option FileStat

/-- `int file_is_executable(const char *name)`:
`return (!access(name, X_OK) && !stat(name, &s) && S_ISREG(s.st_mode));` -/
def file_is_executable (fs : FS) (name : List Char) : Bool :=
  fs.access_X_OK name &&
    match fs.stat name with
    | some s => S_ISREG s.st_mode
    | none => false

/-- `strchrnul(p, ':')` view of a string: the prefix before the first `':'`
and, when a `':'` was found, the suffix just after it (`end + 1`); `none`
when no delimiter remains (`*end == '\0'`). -/
def splitAtColon : List Char → List Char × Option (List Char)
  | [] => ([], none)
  | c :: cs =>
    if c = ':' then ([], some cs)
    else
      let r := splitAtColon cs
      (c :: r.1, r.2)

/-- Candidate path built by the loop body: `xasprintf("%.*s/%s", sz, p, name)`
for a non-empty component, `xstrdup(name)` for an empty one. -/
def mkCand (comp name : List Char) : List Char :=
  if comp.isEmpty then name else comp ++ '/' :: name

/-- The `while (1)` loop of `find_executable`, operating on the current read
position `p` inside the search path.  Returns `some (cand, newPATHp)` when a
candidate passes `file_is_executable` (the C then stores
`*PATHp = (*end ? end+1 : NULL)` and returns `cand`), `none` when the last
component is exhausted.  The `fuel` argument only makes the recursion
structural: every non-final iteration strictly shortens `p`
(`splitAtColon_length`), so the `fuel = 0` case is unreachable from any
call with `fuel > p.length`, in particular from `find_executable` below. -/
def findExecLoop (fs : FS) (name : List Char) :
    Nat → List Char → Option (List Char × Option (List Char))
  | 0, _ => none
  | fuel + 1, p =>
    if file_is_executable fs (mkCand (splitAtColon p).1 name) then
      some (mkCand (splitAtColon p).1 name, (splitAtColon p).2)
    else
      match (splitAtColon p).2 with
      | none => none
      | some rest => findExecLoop fs name fuel rest

/-- `char* find_executable(const char *name, const char **PATHp)`.
The in/out parameter `*PATHp` is an `Option (List Char)` (`none` = NULL);
the result is the pair (returned string or NULL, value of `*PATHp` after the
call).  The C writes `*PATHp` only on success, so on failure the cursor
comes back unchanged. -/
def find_executable (fs : FS) (name : List Char) (PATHp : Option (List Char)) :
    Option (List Char) × Option (List Char) :=
  match PATHp with
  | none => (none, none)
  | some p =>
    match findExecLoop fs name (p.length + 1) p with
    | some (cand, newp) => (some cand, newp)
    | none => (none, some p)

/-- `int executable_exists(const char *name)`: resolve `name` against the
inherited `$PATH` (passed here as `pathEnv`, `none` when unset) and report
whether a match was found. -/
def executable_exists (fs : FS) (pathEnv : Option (List Char)) (name : List Char) : Bool :=
  (find_executable fs name pathEnv).1.isSome

/-- The components of a search path: maximal `':'`-free substrings, in
order.  `components [] = [[]]`: a zero-length path consists of one empty
component, exactly as the scan loop sees it. -/
def components : List Char → List (List Char)
  | [] => [[]]
  | c :: cs =>
    if c = ':' then [] :: components cs
    else
      match components cs with
      | [] => [[c]]
      | comp :: rest => (c :: comp) :: rest

/-- The three build-time applet feature macros, modelled as runtime flags
(one boolean per `ENABLE_FEATURE_*` macro, preserving the branch structure
of the preprocessed code for every combination). -/
structure Config where
  ENABLE_FEATURE_PREFER_APPLETS : Bool
  ENABLE_FEATURE_FORCE_NOEXEC : Bool
  ENABLE_FEATURE_FORCE_APPLETS : Bool

/-- External collaborators of `BB_EXECVP`: the applet registry
(`find_applet_by_name`, negative result = no match, and the
`APPLET_IS_NOEXEC` flag of a matched applet), the running binary's own image
path `bb_busybox_exec_path`, and the OS `execvp` primitive, summarised by
the errno it sets when it returns (`none` = the exec succeeds and replaces
the process, so the call never returns). -/
structure ExecEnv where
  find_applet_by_name : List Char → Int
  APPLET_IS_NOEXEC : Int → Bool
  bb_busybox_exec_path : List Char
  execvp_errno : List Char → Option Nat

/-- One observable external action of the dispatcher: an `execvp` invocation
with its path and argument vector, or a hand-off to
`run_noexec_applet_and_exit`. -/
inductive ExecCall where
  | execvp (path : List Char) (argv : List (List Char))
  | run_noexec_applet (applet : Int) (file : List Char) (argv : List (List Char))
deriving DecidableEq

/-- Outcome of `BB_EXECVP`: the process image was replaced (or the noexec
runner took over) and the call never returns, or the call returned `ret`
with `errno` set. -/
inductive BBResult where
  | noReturn
  | returned (ret : Int) (errno : Nat)
deriving DecidableEq

/-- `ENOENT` (2). -/
def ENOENT : Nat := 2

/-- A plain `execvp(path, argv)` call: records the attempt and either never
returns or returns `-1` with the errno the OS reports for `path`. -/
def execvp_call (env : ExecEnv) (path : List Char) (argv : List (List Char)) :
    List ExecCall × BBResult :=
  match env.execvp_errno path with
  | none => ([ExecCall.execvp path argv], BBResult.noReturn)
  | some e => ([ExecCall.execvp path argv], BBResult.returned (-1) e)

/-- `int BB_EXECVP(const char *file, char *const argv[])`, returning the
ordered list of external exec actions it performs together with its
outcome.  Mirrors the preprocessor structure: the applet lookup exists only
under `ENABLE_FEATURE_PREFER_APPLETS`, and the `errno = ENOENT; return -1;`
branch only under `ENABLE_FEATURE_FORCE_APPLETS` nested inside it; a failed
re-exec of `bb_busybox_exec_path` falls through to `execvp(file, argv)`. -/
def BB_EXECVP (cfg : Config) (env : ExecEnv) (file : List Char)
    (argv : List (List Char)) : List ExecCall × BBResult :=
  if cfg.ENABLE_FEATURE_PREFER_APPLETS then
    if 0 ≤ env.find_applet_by_name file then
      if cfg.ENABLE_FEATURE_FORCE_NOEXEC ||
          env.APPLET_IS_NOEXEC (env.find_applet_by_name file) then
        ([ExecCall.run_noexec_applet (env.find_applet_by_name file) file argv],
          BBResult.noReturn)
      else
        match env.execvp_errno env.bb_busybox_exec_path with
        | none => ([ExecCall.execvp env.bb_busybox_exec_path argv], BBResult.noReturn)
        | some _ =>
          (ExecCall.execvp env.bb_busybox_exec_path argv :: (execvp_call env file argv).1,
            (execvp_call env file argv).2)
    else
      if cfg.ENABLE_FEATURE_FORCE_APPLETS then
        ([], BBResult.returned (-1) ENOENT)
      else
        execvp_call env file argv
  else
    execvp_call env file argv

/-- Outcome of `BB_EXECVP_or_die`: the dispatch never returned, or the
process was terminated with `exit_code` after a diagnostic naming `cmd`.
There is no constructor for returning to the caller. -/
inductive DieOutcome where
  | noReturn
  | died (exit_code : Nat) (cmd : List Char)
deriving DecidableEq

/-- `void BB_EXECVP_or_die(char **argv)`: dispatch `argv[0]`; if the
dispatch returns, set `xfunc_error_retval` to 127 when `errno == ENOENT`
and 126 otherwise, then die with a diagnostic naming `argv[0]`. -/
def BB_EXECVP_or_die (cfg : Config) (env : ExecEnv) (argv : List (List Char)) :
    List ExecCall × DieOutcome :=
  match BB_EXECVP cfg env (argv.headD []) argv with
  | (calls, BBResult.noReturn) => (calls, DieOutcome.noReturn)
  | (calls, BBResult.returned _ e) =>
    (calls, DieOutcome.died (if e = ENOENT then 127 else 126) (argv.headD []))

/-- A filesystem in which every probe fails. -/
def fsNone : FS :=
  { access_X_OK := fun _ => false, stat := fun _ => none }

/-- The name `tool`. -/
def toolName : List Char := ['t', 'o', 'o', 'l']

/-- A filesystem in which exactly the bare relative name `tool` is an
executable regular file (mode 0100755); every other path fails both
probes. -/
def fsTool : FS :=
  { access_X_OK := fun s => s == toolName
    stat := fun s => if s == toolName then some ⟨0o100755⟩ else none }

/-- A filesystem in which exactly `/b/tool` is an executable regular
file. -/
def fsB : FS :=
  { access_X_OK := fun s => s == '/' :: 'b' :: '/' :: toolName
    stat := fun s => if s == '/' :: 'b' :: '/' :: toolName then some ⟨0o100755⟩ else none }

/-- A filesystem in which exactly `/d` is a directory (mode 040755) with
execute permission granted. -/
def fsDir : FS :=
  { access_X_OK := fun s => s == ['/', 'd']
    stat := fun s => if s == ['/', 'd'] then some ⟨0o040755⟩ else none }

/-- Applet preference enabled, force-noexec and force-applets disabled. -/
def cfgPrefer : Config := ⟨true, false, false⟩

/-- Applet preference and force-applets enabled, force-noexec disabled. -/
def cfgForceApplets : Config := ⟨true, false, true⟩

/-- The running binary's image path used by the concrete environments. -/
def bbPath : List Char := ['/', 'b', 'b']

/-- Registry knowing one non-noexec applet `ls` (id 3); every exec attempt
succeeds. -/
def envApplet : ExecEnv :=
  { find_applet_by_name := fun s => if s == ['l', 's'] then 3 else -1
    APPLET_IS_NOEXEC := fun _ => false
    bb_busybox_exec_path := bbPath
    execvp_errno := fun _ => none }

/-- Registry knowing the applet `ls`, but every exec attempt fails
(errno 13, `EACCES`). -/
def envReexecFail : ExecEnv :=
  { find_applet_by_name := fun s => if s == ['l', 's'] then 3 else -1
    APPLET_IS_NOEXEC := fun _ => false
    bb_busybox_exec_path := bbPath
    execvp_errno := fun _ => some 13 }

/-- Empty registry; every exec attempt fails with `ENOENT`. -/
def envNoApplet : ExecEnv :=
  { find_applet_by_name := fun _ => -1
    APPLET_IS_NOEXEC := fun _ => false
    bb_busybox_exec_path := bbPath
    execvp_errno := fun _ => some ENOENT }

theorem splitAtColon_length {p r : List Char} (h : (splitAtColon p).2 = some r) :
    r.length < p.length := by
  induction p with
  | nil => simp [splitAtColon] at h
  | cons c cs ih =>
    by_cases hc : c = ':'
    · simp [splitAtColon, hc] at h
      subst h
      simp
    · simp [splitAtColon, hc] at h
      exact Nat.lt_trans (ih h) (by simp)

theorem components_ne_nil (p : List Char) : components p ≠ [] := by
  cases p with
  | nil => simp [components]
  | cons c cs =>
    by_cases hc : c = ':'
    · simp [components, hc]
    · simp only [components, if_neg hc]
      cases components cs <;> simp

theorem components_splitAtColon (p : List Char) :
    components p = (splitAtColon p).1 ::
      (match (splitAtColon p).2 with
       | none => []
       | some r => components r) := by
  induction p with
  | nil => simp [components, splitAtColon]
  | cons c cs ih =>
    by_cases hc : c = ':'
    · simp [components, splitAtColon, hc]
    · simp only [components, splitAtColon, if_neg hc]
      rw [ih]

theorem findExecLoop_found_probe (fs : FS) (name : List Char) :
    ∀ fuel p cand newp, findExecLoop fs name fuel p = some (cand, newp) →
      file_is_executable fs cand = true := by
  intro fuel
  induction fuel with
  | zero => intro p cand newp h; simp [findExecLoop] at h
  | succ fuel ih =>
    intro p cand newp h
    simp only [findExecLoop] at h
    split at h
    · simp only [Option.some.injEq, Prod.mk.injEq] at h
      rw [← h.1]
      assumption
    · split at h
      · simp at h
      · exact ih _ _ _ h

theorem findExecLoop_found_spec (fs : FS) (name : List Char) :
    ∀ fuel p cand newp, p.length < fuel →
      findExecLoop fs name fuel p = some (cand, newp) →
      ∃ k, k < (components p).length ∧
        cand = mkCand ((components p).getD k []) name ∧
        (∀ j, j < k →
          file_is_executable fs (mkCand ((components p).getD j []) name) = false) ∧
        ((newp = none ∧ k + 1 = (components p).length) ∨
         (∃ rest, newp = some rest ∧
            components rest = (components p).drop (k + 1))) := by
  intro fuel
  induction fuel with
  | zero => intro p cand newp h; exact absurd h (Nat.not_lt_zero _)
  | succ fuel ih =>
    intro p cand newp hlen hrun
    rw [components_splitAtColon p]
    simp only [findExecLoop] at hrun
    split at hrun
    case isTrue hp =>
      simp only [Option.some.injEq, Prod.mk.injEq] at hrun
      obtain ⟨hc, hn⟩ := hrun
      refine ⟨0, ?_, ?_, ?_, ?_⟩
      · simp
      · simp [hc]
      · intro j hj; exact absurd hj (Nat.not_lt_zero _)
      · cases hsplit : (splitAtColon p).2 with
        | none =>
          left
          simp [hsplit] at hn ⊢
          exact hn.symm
        | some rest =>
          right
          exact ⟨rest, by rw [← hn, hsplit], by simp [hsplit]⟩
    case isFalse hp =>
      cases hsplit : (splitAtColon p).2 with
      | none => rw [hsplit] at hrun; simp at hrun
      | some rest =>
        rw [hsplit] at hrun
        have hrl : rest.length < fuel :=
          Nat.lt_of_lt_of_le (splitAtColon_length hsplit) (Nat.lt_succ_iff.mp hlen)
        obtain ⟨k, hk, hcand, hprev, hcur⟩ := ih rest cand newp hrl hrun
        refine ⟨k + 1, ?_, ?_, ?_, ?_⟩
        · simp [hsplit]; omega
        · simpa [hsplit] using hcand
        · intro j hj
          cases j with
          | zero =>
            simp only [List.getD_cons_zero]
            exact Bool.not_eq_true _ ▸ (by simpa using hp)
          | succ j' =>
            simp only [hsplit, List.getD_cons_succ]
            exact hprev j' (Nat.lt_of_succ_lt_succ hj)
        · rcases hcur with ⟨hnone, hlast⟩ | ⟨rest', hr', hcomps⟩
          · left
            refine ⟨hnone, ?_⟩
            simp [hsplit]
            omega
          · right
            exact ⟨rest', hr', by simpa [hsplit] using hcomps⟩

/-- C1: whenever `find_executable` returns a candidate path rather than
NULL, `file_is_executable` holds for that path under the same filesystem
state. -/
theorem C1_find_executable_returns_executable (fs : FS) (name : List Char)
    (PATHp : Option (List Char)) (cand : List Char) (newp : Option (List Char))
    (h : find_executable fs name PATHp = (some cand, newp)) :
    file_is_executable fs cand = true := by
  cases PATHp with
  | none => simp [find_executable] at h
  | some p =>
    simp only [find_executable] at h
    cases hrun : findExecLoop fs name (p.length + 1) p with
    | none => rw [hrun] at h; simp at h
    | some pr =>
      obtain ⟨c, np⟩ := pr
      rw [hrun] at h
      simp only [Prod.mk.injEq, Option.some.injEq] at h
      obtain ⟨rfl, rfl⟩ := h
      exact findExecLoop_found_probe fs name (p.length + 1) p _ _ hrun

theorem C1_witness :
    file_is_executable fsB ('/' :: 'b' :: '/' :: toolName) = true :=
  C1_find_executable_returns_executable fsB toolName
    (some ['/', 'a', ':', '/', 'b']) ('/' :: 'b' :: '/' :: toolName) none (by decide)

/-- C2 counterexample: with path `/a`, name `t` and a filesystem in which
every probe fails, the resolver scans its final (only) component, finds no
match, returns NULL — and leaves the caller-visible cursor at its original
value `some "/a"`, which is not the exhausted state (`none`): the C writes
`*PATHp` only on success. -/
theorem C2_counterexample :
    (find_executable fsNone ['t'] (some ['/', 'a'])).1 = none ∧
    (find_executable fsNone ['t'] (some ['/', 'a'])).2 = some ['/', 'a'] ∧
    some ['/', 'a'] ≠ (none : Option (List Char)) := by decide

/-- C2 amended: when the resolver finds no executable match (including in
the final component) it returns "not found" and leaves the caller-visible
cursor unchanged — it is not transitioned to the exhausted state; a
subsequent call with that same cursor therefore repeats the whole scan from
the original position (returning "not found" again under the same
filesystem state). -/
theorem C2_failure_leaves_cursor_unchanged (fs : FS) (name : List Char)
    (PATHp : Option (List Char))
    (h : (find_executable fs name PATHp).1 = none) :
    (find_executable fs name PATHp).2 = PATHp ∧
    find_executable fs name ((find_executable fs name PATHp).2) =
      find_executable fs name PATHp := by
  cases PATHp with
  | none => exact ⟨rfl, rfl⟩
  | some p =>
    cases hrun : findExecLoop fs name (p.length + 1) p with
    | none => constructor <;> simp [find_executable, hrun]
    | some pr =>
      obtain ⟨c, np⟩ := pr
      simp [find_executable, hrun] at h

theorem C2_witness :
    (find_executable fsNone ['t'] (some ['/', 'a'])).2 = some ['/', 'a'] :=
  (C2_failure_leaves_cursor_unchanged fsNone ['t'] (some ['/', 'a']) (by decide)).1

/-- C3: a successful resolution matches the first passing component (index
`k`), and the cursor left behind is exhausted (`none`) when that component
was the last one, and otherwise points to a suffix whose components are
exactly the components after the matched one — so a further call enumerates
only later components and never re-scans consumed ones. -/
theorem C3_match_leaves_resumable_cursor (fs : FS) (name p cand : List Char)
    (newp : Option (List Char))
    (h : find_executable fs name (some p) = (some cand, newp)) :
    ∃ k, k < (components p).length ∧
      cand = mkCand ((components p).getD k []) name ∧
      (∀ j, j < k →
        file_is_executable fs (mkCand ((components p).getD j []) name) = false) ∧
      ((newp = none ∧ k + 1 = (components p).length) ∨
       (∃ rest, newp = some rest ∧
          components rest = (components p).drop (k + 1))) := by
  simp only [find_executable] at h
  cases hrun : findExecLoop fs name (p.length + 1) p with
  | none => rw [hrun] at h; simp at h
  | some pr =>
    obtain ⟨c, np⟩ := pr
    rw [hrun] at h
    simp only [Prod.mk.injEq, Option.some.injEq] at h
    obtain ⟨rfl, rfl⟩ := h
    exact findExecLoop_found_spec fs name (p.length + 1) p _ _ (Nat.lt_succ_self _) hrun

theorem C3_witness :
    ∃ k, k < (components ['/', 'a', ':', '/', 'b']).length ∧
      '/' :: 'b' :: '/' :: toolName =
        mkCand ((components ['/', 'a', ':', '/', 'b']).getD k []) toolName ∧
      (∀ j, j < k →
        file_is_executable fsB
          (mkCand ((components ['/', 'a', ':', '/', 'b']).getD j []) toolName) = false) ∧
      (((none : Option (List Char)) = none ∧
        k + 1 = (components ['/', 'a', ':', '/', 'b']).length) ∨
       (∃ rest, (none : Option (List Char)) = some rest ∧
          components rest = (components ['/', 'a', ':', '/', 'b']).drop (k + 1))) :=
  C3_match_leaves_resumable_cursor fsB toolName ['/', 'a', ':', '/', 'b']
    ('/' :: 'b' :: '/' :: toolName) none (by decide)

/-- C4 counterexample: with an empty (zero-length, non-null) search path and
a filesystem in which the bare name `tool` probes as executable, the
resolver returns a match (the bare name) and the existence query reports
true — the loop treats `""` as one empty component meaning the current
directory, so "empty path always resolves to not found" fails. -/
theorem C4_counterexample :
    (find_executable fsTool toolName (some [])).1 = some toolName ∧
    executable_exists fsTool (some []) toolName = true := by decide

/-- C4 amended: with an absent (NULL) search path, both the resolver and the
existence query return "not found", for every filesystem state uniformly
(no probe influences the result).  With an empty (zero-length) search path
the loop sees a single empty component: the resolver returns the bare name
exactly when the bare name probes as executable, and "not found"
otherwise. -/
theorem C4_null_path_not_found (fs : FS) (name : List Char) :
    find_executable fs name none = (none, none) ∧
    executable_exists fs none name = false ∧
    (find_executable fs name (some [])).1 =
      (if file_is_executable fs name then some name else none) := by
  refine ⟨rfl, rfl, ?_⟩
  by_cases hp : file_is_executable fs name = true
  · simp [find_executable, findExecLoop, splitAtColon, mkCand, hp]
  · simp [find_executable, findExecLoop, splitAtColon, mkCand, hp]

/-- C5: the candidate a successful resolution returns is built from an
actual component of the search path: `component ++ "/" ++ name` for a
non-empty component, the bare `name` for an empty one. -/
theorem C5_candidate_construction (fs : FS) (name p cand : List Char)
    (newp : Option (List Char))
    (h : find_executable fs name (some p) = (some cand, newp)) :
    ∃ comp, comp ∈ components p ∧
      (comp = [] → cand = name) ∧
      (comp ≠ [] → cand = comp ++ '/' :: name) := by
  simp only [find_executable] at h
  cases hrun : findExecLoop fs name (p.length + 1) p with
  | none => rw [hrun] at h; simp at h
  | some pr =>
    obtain ⟨c, np⟩ := pr
    rw [hrun] at h
    simp only [Prod.mk.injEq, Option.some.injEq] at h
    obtain ⟨rfl, rfl⟩ := h
    obtain ⟨k, hk, hcand, -, -⟩ :=
      findExecLoop_found_spec fs name (p.length + 1) p _ _ (Nat.lt_succ_self _) hrun
    refine ⟨(components p).getD k [], ?_, ?_, ?_⟩
    · rw [List.getD_eq_getElem (components p) [] hk]
      exact List.getElem_mem hk
    · intro hcomp
      rw [hcand, hcomp]
      simp [mkCand]
    · intro hcomp
      rw [hcand]
      cases hc : (components p).getD k [] with
      | nil => exact absurd hc hcomp
      | cons a l => simp [mkCand, hc]

theorem C5_witness :
    ∃ comp, comp ∈ components ['/', 'a', ':', ':', '/', 'b'] ∧
      (comp = [] → toolName = toolName) ∧
      (comp ≠ [] → toolName = comp ++ '/' :: toolName) :=
  C5_candidate_construction fsTool toolName ['/', 'a', ':', ':', '/', 'b'] toolName
    (some ['/', 'b']) (by decide)

/-- C6: `file_is_executable` is true iff `access(name, X_OK)` grants
execute access and `stat` succeeds reporting a regular file; a failing
`stat`, a denied `access`, or a non-regular file type (e.g. a directory
with execute bits) each yield false rather than an error. -/
theorem C6_file_is_executable_spec (fs : FS) (name : List Char) :
    (file_is_executable fs name = true ↔
      fs.access_X_OK name = true ∧
        ∃ s, fs.stat name = some s ∧ S_ISREG s.st_mode = true) ∧
    (∀ s, fs.stat name = some s → s.st_mode &&& S_IFMT ≠ S_IFREG →
      file_is_executable fs name = false) ∧
    (fs.stat name = none → file_is_executable fs name = false) ∧
    (fs.access_X_OK name = false → file_is_executable fs name = false) := by
  unfold file_is_executable
  cases hstat : fs.stat name with
  | none => simp
  | some s =>
    refine ⟨?_, ?_, ?_, ?_⟩
    · simp [Bool.and_eq_true]
    · intro s' hs' hmode
      obtain rfl : s = s' := by injection hs'
      simp [S_ISREG, hmode]
    · intro hnone; exact absurd hnone (by simp)
    · intro hacc; simp [hacc]

theorem C6_witness : file_is_executable fsDir ['/', 'd'] = false :=
  (C6_file_is_executable_spec fsDir ['/', 'd']).2.1 ⟨0o040755⟩ (by decide) (by decide)

/-- C7: with applet preference enabled, force-no-exec disabled, and a
registry match that is not flagged no-exec, the first external action of
`BB_EXECVP` is an `execvp` of the running binary's own image path
(`bb_busybox_exec_path`, not the requested file name) with the original
argument vector unmodified. -/
theorem C7_reexec_own_image (cfg : Config) (env : ExecEnv) (file : List Char)
    (argv : List (List Char))
    (hpref : cfg.ENABLE_FEATURE_PREFER_APPLETS = true)
    (hnoforce : cfg.ENABLE_FEATURE_FORCE_NOEXEC = false)
    (happ : 0 ≤ env.find_applet_by_name file)
    (hnx : env.APPLET_IS_NOEXEC (env.find_applet_by_name file) = false) :
    (BB_EXECVP cfg env file argv).1.head? =
      some (ExecCall.execvp env.bb_busybox_exec_path argv) := by
  cases henv : env.execvp_errno env.bb_busybox_exec_path with
  | none => simp [BB_EXECVP, hpref, hnoforce, hnx, happ, henv]
  | some e => simp [BB_EXECVP, hpref, hnoforce, hnx, happ, henv]

theorem C7_witness :
    (BB_EXECVP cfgPrefer envApplet ['l', 's'] [['l', 's']]).1.head? =
      some (ExecCall.execvp envApplet.bb_busybox_exec_path [['l', 's']]) :=
  C7_reexec_own_image cfgPrefer envApplet ['l', 's'] [['l', 's']] rfl rfl
    (by decide) rfl

/-- C8: with applet preference and force-applets enabled and no registry
match, `BB_EXECVP` performs no exec action at all, returns `-1` and sets
`errno` to `ENOENT`; the fallback `execvp(file, argv)` is never
attempted. -/
theorem C8_force_applets_enoent (cfg : Config) (env : ExecEnv) (file : List Char)
    (argv : List (List Char))
    (hpref : cfg.ENABLE_FEATURE_PREFER_APPLETS = true)
    (hforce : cfg.ENABLE_FEATURE_FORCE_APPLETS = true)
    (happ : env.find_applet_by_name file < 0) :
    BB_EXECVP cfg env file argv = ([], BBResult.returned (-1) ENOENT) := by
  have h' : ¬ 0 ≤ env.find_applet_by_name file := not_le.mpr happ
  simp [BB_EXECVP, hpref, hforce, h']

theorem C8_witness :
    BB_EXECVP cfgForceApplets envNoApplet ['l', 's'] [['l', 's']] =
      ([], BBResult.returned (-1) ENOENT) :=
  C8_force_applets_enoent cfgForceApplets envNoApplet ['l', 's'] [['l', 's']]
    rfl rfl (by decide)

/-- C9: whenever the underlying dispatch returns (failure) with errno `e`,
`BB_EXECVP_or_die` terminates the process — exit status 127 when
`e = ENOENT` ("command not found"), 126 for any other cause — with a
diagnostic naming the attempted command `argv[0]`; its outcome type has no
constructor for returning control to the caller. -/
theorem C9_or_die_exit_codes (cfg : Config) (env : ExecEnv)
    (argv : List (List Char)) (ret : Int) (e : Nat)
    (h : (BB_EXECVP cfg env (argv.headD []) argv).2 = BBResult.returned ret e) :
    (BB_EXECVP_or_die cfg env argv).2 =
      DieOutcome.died (if e = ENOENT then 127 else 126) (argv.headD []) := by
  have hbb : BB_EXECVP cfg env (argv.headD []) argv =
      ((BB_EXECVP cfg env (argv.headD []) argv).1, BBResult.returned ret e) := by
    rw [← h, Prod.mk.eta]
  unfold BB_EXECVP_or_die
  rw [hbb]

theorem C9_witness :
    (BB_EXECVP_or_die cfgPrefer envNoApplet [['l', 's']]).2 =
      DieOutcome.died 127 ['l', 's'] := by
  have h := C9_or_die_exit_codes cfgPrefer envNoApplet [['l', 's']] (-1) ENOENT
    (by decide)
  simpa using h

/-- C10: when the re-exec of the running binary's own image fails (the
exec primitive returns), `BB_EXECVP` does not report that failure: it falls
through, additionally attempts `execvp` on the literal requested file name
with the same argument vector, and its outcome is exactly that second
attempt's outcome. -/
theorem C10_reexec_failure_falls_through (cfg : Config) (env : ExecEnv)
    (file : List Char) (argv : List (List Char)) (e : Nat)
    (hpref : cfg.ENABLE_FEATURE_PREFER_APPLETS = true)
    (hnoforce : cfg.ENABLE_FEATURE_FORCE_NOEXEC = false)
    (happ : 0 ≤ env.find_applet_by_name file)
    (hnx : env.APPLET_IS_NOEXEC (env.find_applet_by_name file) = false)
    (hfail : env.execvp_errno env.bb_busybox_exec_path = some e) :
    (BB_EXECVP cfg env file argv).1 =
      [ExecCall.execvp env.bb_busybox_exec_path argv, ExecCall.execvp file argv] ∧
    (BB_EXECVP cfg env file argv).2 = (execvp_call env file argv).2 := by
  have h1 : (execvp_call env file argv).1 = [ExecCall.execvp file argv] := by
    cases hf : env.execvp_errno file <;> simp [execvp_call, hf]
  constructor
  · simp [BB_EXECVP, hpref, hnoforce, hnx, happ, hfail, h1]
  · simp [BB_EXECVP, hpref, hnoforce, hnx, happ, hfail]

theorem C10_witness :
    (BB_EXECVP cfgPrefer envReexecFail ['l', 's'] [['l', 's']]).1 =
      [ExecCall.execvp envReexecFail.bb_busybox_exec_path [['l', 's']],
       ExecCall.execvp ['l', 's'] [['l', 's']]] ∧
    (BB_EXECVP cfgPrefer envReexecFail ['l', 's'] [['l', 's']]).2 =
      (execvp_call envReexecFail ['l', 's'] [['l', 's']]).2 :=
  C10_reexec_failure_falls_through cfgPrefer envReexecFail ['l', 's'] [['l', 's']] 13
    rfl rfl (by decide) rfl (by decide)
